import Mathlib

/-!
Shallow embedding of the task declaration and deferral layer of `cabbage`
(`cabbage/tasks.py`): `Task` (configure / defer / direct call) and
`TaskManager` (task registry and queue provisioning), together with the
value objects they build (`Job`) and the calls they issue to the external
`JobStore` collaborator.

Modelling conventions:
* Timestamps (`datetime` / pendulum instants) are integers counting seconds
  since the Unix epoch, always in UTC.  `pendulum.now("UTC")` becomes an
  explicit `now` parameter: the wall-clock instant at which the modelled
  statement executes.
* The random 128-bit value produced by `uuid.uuid4()` becomes an explicit
  `fresh : Nat` parameter; `str(uuid.uuid4())` is `uuidStr fresh`, the
  canonical lowercase 8-4-4-4-12 hex rendering of that value.
* Python `dict`s keyed by strings are association lists; Python sets of
  strings are lists with membership.
* Effects are explicit: operations take and return the `TaskManager` state
  and additionally return the list of calls they issued to the job store.
  The store itself is external, so its behaviour is an oracle function
  passed in (`storeRQ` for `register_queue`, `storeDefer` for job
  submission), each returning `Except` to model raised store errors.
-/

namespace Cabbage

/-- JSON-representable values: the payload type of task keyword arguments. -/
inductive JSONValue where
| str : String → JSONValue
| num : Int → JSONValue
| boolean : Bool → JSONValue
| null : JSONValue
| arr : List JSONValue → JSONValue
| obj : List (String × JSONValue) → JSONValue

/-- A Python `Dict[str, JSONValue]` as an ordered association list. -/
abbrev JSONDict := List (String × JSONValue)

/-- A timezone-aware instant, as seconds since the Unix epoch (UTC). -/
abbrev DateTime := Int

/-- An opaque reference identifying a `JobStore` object. -/
abbrev JobStoreRef := Nat

/-- Errors raised by this layer or by the job store collaborator.
`valueError` is Python's `ValueError`, the realization of the spec's
`InvalidConfiguration`; the other two come from the external store. -/
inductive Err where
| valueError : String → Err
| storeError : String → Err
| duplicateLockError : String → Err
deriving DecidableEq

/-- A relative-duration specification, Python `Dict[str, int]` as accepted
by `pendulum.DateTime.add` restricted to its fixed-length components; a key
missing from the dict is the field being `0`, so the empty dict `{}` is the
all-zero record. -/
structure Duration where
weeks : Int
days : Int
hours : Int
minutes : Int
seconds : Int
deriving DecidableEq

/-- `pendulum.now("UTC").add(**d)`: fixed-length components, so plain
seconds arithmetic on the UTC timeline. -/
def Duration.addTo (d : Duration) (t : DateTime) : DateTime :=
  t + d.weeks * 604800 + d.days * 86400 + d.hours * 3600 + d.minutes * 60 + d.seconds

/-- The empty duration dict `{}`. -/
def Duration.empty : Duration := ⟨0, 0, 0, 0, 0⟩

/-- Lowercase hexadecimal digit character for `n < 16`. -/
def hexDigit (n : Nat) : Char :=
  if n < 10 then Char.ofNat (48 + n) else Char.ofNat (87 + n)

/-- The low `len` base-16 digits of `n`, most significant first. -/
def hexChars : Nat → Nat → List Char
| _, 0 => []
| n, len + 1 => hexChars (n / 16) len ++ [hexDigit (n % 16)]

/-- `str(uuid.UUID(int=n))`: the canonical 8-4-4-4-12 lowercase hyphenated
rendering of the 128-bit value `n`, as a character list. -/
def uuidChars (n : Nat) : List Char :=
  let ds := hexChars n 32
  ds.take 8 ++ ('-' :: ((ds.drop 8).take 4 ++ ('-' :: ((ds.drop 12).take 4
    ++ ('-' :: ((ds.drop 16).take 4 ++ ('-' :: ds.drop 20)))))))

/-- `str(uuid.UUID(int=n))` as a string. -/
def uuidStr (n : Nat) : String := String.mk (uuidChars n)

/-- Result of invoking a work unit: its return value, or the exception it
raised. -/
abbrev CallResult := Except Err JSONValue

/-- `cabbage.tasks.Task`: an immutable binding of a work unit to a queue
name and a task name.  The back-reference `self.manager` is modelled by
passing the owning `TaskManager` state to the operations that read it. -/
structure Task where
func : JSONDict → CallResult
queue : String
name : String

/-- `cabbage.jobs.Job` (value object).  `job_store` is the reference stored
in the `job_store=` field at construction. -/
structure Job where
id : Option Int
lock : String
task_name : String
queue : String
task_kwargs : JSONDict
scheduled_at : Option DateTime
job_store : JobStoreRef

/-- A call issued to the external `JobStore`. -/
inductive StoreCall where
| registerQueue : String → StoreCall
| deferJob : Job → StoreCall

/-- `cabbage.tasks.TaskManager` mutable state: the store reference, the
task registry `tasks` (dict keyed by task name) and the provisioned-queue
set `queues`. -/
structure TaskManager where
job_store : JobStoreRef
tasks : List (String × Task)
queues : List String

/-- Python `d[k] = v` on a string-keyed dict: overwrite the existing entry
for `k` if present, else append. -/
def dictInsert (ts : List (String × Task)) (k : String) (v : Task) : List (String × Task) :=
  match ts with
  | [] => [(k, v)]
  | (k2, v2) :: rest => if k2 = k then (k, v) :: rest else (k2, v2) :: dictInsert rest k v

/-- Python `d.get(k)` on a string-keyed dict. -/
def dictLookup (ts : List (String × Task)) (k : String) : Option Task :=
  match ts with
  | [] => none
  | (k2, v2) :: rest => if k2 = k then some v2 else dictLookup rest k

/-- `Task.__call__(self, **kwargs)`: `return self.func(**kwargs)` — a pure
pass-through to the work unit; the manager state is untouched and no store
call is issued. -/
def Task.call (t : Task) (m : TaskManager) (kwargs : JSONDict) :
    CallResult × TaskManager × List StoreCall :=
  (t.func kwargs, m, [])

/-- `Task.configure(self, *, lock=None, task_kwargs=None, schedule_at=None,
schedule_in=None)`.  The guard `if schedule_at and schedule_in is not None`
tests `schedule_at` for truthiness, but `datetime` objects are always
truthy, so the test is `isSome` on both options.  `lock or str(uuid4())`
and `task_kwargs or {}` replace any falsy value (None, empty string, empty
dict) by the default.  Returns the raised error or the built `Job`, the
(unchanged) manager state, and the (empty) list of store calls. -/
def Task.configure (t : Task) (m : TaskManager) (now : DateTime) (fresh : Nat)
    (lock : Option String) (task_kwargs : Option JSONDict)
    (schedule_at : Option DateTime) (schedule_in : Option Duration) :
    Except Err Job × TaskManager × List StoreCall :=
  if schedule_at.isSome && schedule_in.isSome then
    (Except.error (Err.valueError "Cannot set both schedule_at and schedule_in"), m, [])
  else
    let schedule_at2 : Option DateTime :=
      match schedule_in with
      | some d => some (d.addTo now)
      | none => schedule_at
    let lock2 : String :=
      match lock with
      | none => uuidStr fresh
      | some s => if s = "" then uuidStr fresh else s
    let task_kwargs2 : JSONDict :=
      match task_kwargs with
      | none => []
      | some k => if k.isEmpty then [] else k
    (Except.ok
      { id := none
        lock := lock2
        task_name := t.name
        queue := t.queue
        task_kwargs := task_kwargs2
        scheduled_at := schedule_at2
        job_store := m.job_store }, m, [])

/-- Modelled from the spec: `Job.defer` lives in `cabbage/jobs.py`, which is
not among the given source files.  Per §4.1 ("calls `configure(taskKwargs=
kwargs)` then immediately submits the resulting Job to the job store,
returning the store-assigned job identifier; any error from the store's
submission propagates unmodified") and the recorded-job shape in the unit
test `test_task_defer`, `job.defer(**kwargs)` submits the job carrying
`kwargs` as its payload to the store and passes the store's answer through.
`storeDefer` is the external store's submission behaviour. -/
def Job.defer (storeDefer : Job → Except Err Int) (job : Job) (kwargs : JSONDict) :
    Except Err Int × List StoreCall :=
  let j := { job with task_kwargs := kwargs }
  (storeDefer j, [StoreCall.deferJob j])

/-- `Task.defer(self, **task_kwargs)`:
`job_id = self.configure().defer(**task_kwargs); return job_id`. -/
def Task.defer (t : Task) (m : TaskManager) (now : DateTime) (fresh : Nat)
    (storeDefer : Job → Except Err Int) (kwargs : JSONDict) :
    Except Err Int × TaskManager × List StoreCall :=
  match Task.configure t m now fresh none none none none with
  | (Except.ok job, m1, calls1) =>
      let r := Job.defer storeDefer job kwargs
      (r.1, m1, calls1 ++ r.2)
  | (Except.error e, m1, calls1) => (Except.error e, m1, calls1)

/-- `TaskManager.register(self, task)`: `self.tasks[task.name] = task`
first; then, only if `task.queue` is not already in `self.queues`, call
`self.job_store.register_queue(task.queue)` and add the queue to the set.
`storeRQ` is the external store's `register_queue` behaviour; if it raises,
the exception propagates with `tasks` already mutated and `queues` not yet
extended. -/
def TaskManager.register (storeRQ : String → Except Err Unit) (m : TaskManager)
    (task : Task) : Except Err Unit × TaskManager × List StoreCall :=
  let m1 : TaskManager := { m with tasks := dictInsert m.tasks task.name task }
  if task.queue ∈ m1.queues then
    (Except.ok (), m1, [])
  else
    match storeRQ task.queue with
    | Except.error e => (Except.error e, m1, [StoreCall.registerQueue task.queue])
    | Except.ok _ =>
        (Except.ok (), { m1 with queues := task.queue :: m1.queues },
          [StoreCall.registerQueue task.queue])

/-- A store whose `register_queue` always succeeds. -/
def okStore : String → Except Err Unit := fun _ => Except.ok ()

/-- Sequential registration of a list of tasks against one manager,
accumulating the issued store calls. -/
def TaskManager.registerAll (storeRQ : String → Except Err Unit) (m : TaskManager) :
    List Task → TaskManager × List StoreCall
| [] => (m, [])
| t :: rest =>
    let r1 := TaskManager.register storeRQ m t
    let r2 := TaskManager.registerAll storeRQ r1.2.1 rest
    (r2.1, r1.2.2 ++ r2.2)

/-- Recognizer for a `register_queue` call naming queue `q`. -/
def StoreCall.isRegisterQueueFor (q : String) : StoreCall → Bool
| StoreCall.registerQueue q2 => q2 = q
| _ => false

/-- Number of `register_queue(q)` calls in a store-call log. -/
def countRegisterQueue (q : String) (calls : List StoreCall) : Nat :=
  calls.countP (StoreCall.isRegisterQueueFor q)

/-- Numeric value of a lowercase hex digit character. -/
def hexVal (c : Char) : Nat :=
  if 97 ≤ c.toNat then c.toNat - 87 else c.toNat - 48

/-- Decode a most-significant-first list of hex digit characters. -/
def decodeHex (cs : List Char) : Nat :=
  cs.foldl (fun acc c => acc * 16 + hexVal c) 0

/- Helper lemmas about the uuid rendering. -/

theorem hexChars_length (len : Nat) : ∀ n : Nat, (hexChars n len).length = len := by
  induction len with
  | zero => intro n; rfl
  | succ k ih => intro n; simp [hexChars, ih]

theorem hexVal_hexDigit (k : Nat) (hk : k < 16) : hexVal (hexDigit k) = k := by
  interval_cases k <;> rfl

theorem hexDigit_ne_dash (k : Nat) (hk : k < 16) : hexDigit k ≠ '-' := by
  interval_cases k <;> decide

theorem decodeHex_append (a b : List Char) :
    decodeHex (a ++ b) = b.foldl (fun acc c => acc * 16 + hexVal c) (decodeHex a) := by
  simp [decodeHex, List.foldl_append]

theorem decodeHex_hexChars (len : Nat) :
    ∀ n : Nat, n < 16 ^ len → decodeHex (hexChars n len) = n := by
  induction len with
  | zero =>
      intro n hn
      interval_cases n
      rfl
  | succ k ih =>
      intro n hn
      have hdiv : n / 16 < 16 ^ k := by
        rw [pow_succ] at hn
        omega
      have hmod : n % 16 < 16 := Nat.mod_lt _ (by omega)
      calc decodeHex (hexChars n (k + 1))
          = decodeHex (hexChars (n / 16) k ++ [hexDigit (n % 16)]) := rfl
        _ = decodeHex (hexChars (n / 16) k) * 16 + hexVal (hexDigit (n % 16)) := by
            rw [decodeHex_append]; rfl
        _ = n / 16 * 16 + n % 16 := by rw [ih _ hdiv, hexVal_hexDigit _ hmod]
        _ = n := by omega

theorem segment_join (l : List Char) (k : Nat) :
    (l.drop k).take 4 ++ l.drop (k + 4) = l.drop k := by
  have h1 := List.take_append_drop 4 (l.drop k)
  rwa [List.drop_drop] at h1

theorem hexChars32_eq_of_uuidChars_eq (m n : Nat)
    (h : uuidChars m = uuidChars n) : hexChars m 32 = hexChars n 32 := by
  simp only [uuidChars] at h
  have h8 : ∀ a : Nat, ((hexChars a 32).take 8).length = 8 := by
    intro a; rw [List.length_take, hexChars_length]; omega
  have h4 : ∀ a k : Nat, k ≤ 28 → (((hexChars a 32).drop k).take 4).length = 4 := by
    intro a k hk; rw [List.length_take, List.length_drop, hexChars_length]; omega
  have step0 := List.append_inj h (by rw [h8 m, h8 n])
  obtain ⟨e0, r0⟩ := step0
  have r0' := List.cons_injective.eq_iff.mp r0
  have step1 := List.append_inj r0' ((h4 m 8 (by omega)).trans (h4 n 8 (by omega)).symm)
  obtain ⟨e1, r1⟩ := step1
  have r1' := List.cons_injective.eq_iff.mp r1
  have step2 := List.append_inj r1' ((h4 m 12 (by omega)).trans (h4 n 12 (by omega)).symm)
  obtain ⟨e2, r2⟩ := step2
  have r2' := List.cons_injective.eq_iff.mp r2
  have step3 := List.append_inj r2' ((h4 m 16 (by omega)).trans (h4 n 16 (by omega)).symm)
  obtain ⟨e3, r3⟩ := step3
  have r3' := List.cons_injective.eq_iff.mp r3
  have hre : ∀ a : Nat, hexChars a 32 =
      (hexChars a 32).take 8 ++ (((hexChars a 32).drop 8).take 4
        ++ (((hexChars a 32).drop 12).take 4 ++ (((hexChars a 32).drop 16).take 4
          ++ (hexChars a 32).drop 20))) := by
    intro a
    have j16 := segment_join (hexChars a 32) 16
    have j12 := segment_join (hexChars a 32) 12
    have j8 := segment_join (hexChars a 32) 8
    norm_num at j16 j12 j8
    rw [j16, j12, j8, List.take_append_drop]
  rw [hre m, hre n, e0, e1, e2, e3, r3']

theorem uuidChars_injOn (m n : Nat) (hm : m < 2 ^ 128) (hn : n < 2 ^ 128)
    (h : uuidChars m = uuidChars n) : m = n := by
  have hpow : (2 : Nat) ^ 128 = 16 ^ 32 := by norm_num
  have hhex := hexChars32_eq_of_uuidChars_eq m n h
  have dm := decodeHex_hexChars 32 m (by omega)
  have dn := decodeHex_hexChars 32 n (by omega)
  rw [← dm, ← dn, hhex]

theorem uuidChars_length (n : Nat) : (uuidChars n).length = 36 := by
  simp only [uuidChars, List.length_append, List.length_cons, List.length_take,
    List.length_drop, hexChars_length]
  omega

theorem uuidStr_ne_empty (n : Nat) : uuidStr n ≠ "" := by
  intro h
  have hlen : (uuidChars n).length = 0 := by
    have : (String.mk (uuidChars n)).data = ("" : String).data := by rw [← uuidStr, h]
    simp at this
    simp [this]
  rw [uuidChars_length] at hlen
  omega

theorem uuidStr_injOn (m n : Nat) (hm : m < 2 ^ 128) (hn : n < 2 ^ 128)
    (h : uuidStr m = uuidStr n) : m = n := by
  apply uuidChars_injOn m n hm hn
  have : (String.mk (uuidChars m)).data = (String.mk (uuidChars n)).data := by
    rw [← uuidStr, ← uuidStr, h]
  simpa using this

theorem dictLookup_dictInsert (ts : List (String × Task)) (k : String) (v : Task) :
    dictLookup (dictInsert ts k v) k = some v := by
  induction ts with
  | nil => simp [dictInsert, dictLookup]
  | cons p rest ih =>
      obtain ⟨k2, v2⟩ := p
      by_cases hk : k2 = k <;> simp [dictInsert, dictLookup, hk, ih]

/- Concrete fixtures used by witness theorems. -/

/-- A trivial work unit. -/
def exampleFunc : JSONDict → CallResult := fun _ => Except.ok JSONValue.null

/-- A concrete task, mirroring the `task_func` fixture of the unit tests. -/
def exampleTask : Task := { func := exampleFunc, queue := "queue", name := "task_func" }

/-- A freshly constructed manager with store reference `0`. -/
def exampleManager : TaskManager := { job_store := 0, tasks := [], queues := [] }

/-- A store whose `register_queue` always raises a `StoreError`. -/
def failingStore : String → Except Err Unit := fun _ => Except.error (Err.storeError "boom")

/- Claim theorems. -/

/-- C1: for every task and every keyword-argument mapping, `Task.defer`
is the composition: the very job that `configure` with `taskKwargs =
kwargs` returns is submitted to the job store, and the store's answer —
the assigned integer identifier on success, the raised error otherwise —
is returned unmodified to the caller. -/
theorem task_defer_is_configure_then_submit (t : Task) (m : TaskManager)
    (now : DateTime) (fresh : Nat) (storeDefer : Job → Except Err Int)
    (kwargs : JSONDict) :
    ∃ job : Job,
      Task.configure t m now fresh none (some kwargs) none none
        = (Except.ok job, m, []) ∧
      Task.defer t m now fresh storeDefer kwargs
        = (storeDefer job, m, [StoreCall.deferJob job]) := by
  have hk : (if kwargs.isEmpty then ([] : JSONDict) else kwargs) = kwargs := by
    cases kwargs <;> simp
  refine ⟨_, rfl, ?_⟩
  simp [Task.defer, Task.configure, Job.defer, hk]

/-- C2: every `configure` call supplying both `schedule_at` and
`schedule_in` raises `ValueError` (the spec's `InvalidConfiguration`),
whatever the supplied values — including a zero-length duration — because
the guard tests only the presence of the two arguments. -/
theorem configure_both_schedules_invalid (t : Task) (m : TaskManager)
    (now : DateTime) (fresh : Nat) (lock : Option String)
    (task_kwargs : Option JSONDict) (a : DateTime) (d : Duration) :
    (Task.configure t m now fresh lock task_kwargs (some a) (some d)).1
      = Except.error (Err.valueError "Cannot set both schedule_at and schedule_in") := rfl

/-- C3: every `configure` call supplying `schedule_in` and no
`schedule_at` yields a job whose `scheduled_at` is the current UTC time at
the moment `configure` executes plus the given duration; in particular a
2-hour duration at 2000-01-01T00:00:00Z (epoch second 946684800) yields
2000-01-01T02:00:00Z (epoch second 946692000). -/
theorem configure_schedule_in_is_now_plus_duration :
    (∀ (t : Task) (m : TaskManager) (now : DateTime) (fresh : Nat)
        (lock : Option String) (task_kwargs : Option JSONDict) (d : Duration),
      ∃ job : Job,
        (Task.configure t m now fresh lock task_kwargs none (some d)).1
          = Except.ok job ∧
        job.scheduled_at = some (d.addTo now)) ∧
    (∃ job : Job,
      (Task.configure exampleTask exampleManager 946684800 0 none none none
          (some { weeks := 0, days := 0, hours := 2, minutes := 0, seconds := 0 })).1
        = Except.ok job ∧
      job.scheduled_at = some 946692000) := by
  constructor
  · intro t m now fresh lock task_kwargs d
    cases lock <;> cases task_kwargs <;> exact ⟨_, rfl, rfl⟩
  · exact ⟨_, rfl, by norm_num [Duration.addTo]⟩

/-- C4: every successful `configure` call returns a job with `id` unset,
`task_name` the task's name, `queue` the task's queue, and `job_store` the
owning manager's store; an omitted `lock` becomes the freshly generated
uuid token and omitted `task_kwargs` becomes the empty mapping. -/
theorem configure_result_fields (t : Task) (m : TaskManager) (now : DateTime)
    (fresh : Nat) (lock : Option String) (task_kwargs : Option JSONDict)
    (schedule_at : Option DateTime) (schedule_in : Option Duration)
    (h : ¬(schedule_at.isSome ∧ schedule_in.isSome)) :
    ∃ job : Job,
      (Task.configure t m now fresh lock task_kwargs schedule_at schedule_in).1
        = Except.ok job ∧
      job.id = none ∧ job.task_name = t.name ∧ job.queue = t.queue ∧
      job.job_store = m.job_store ∧
      (lock = none → job.lock = uuidStr fresh) ∧
      (task_kwargs = none → job.task_kwargs = []) := by
  cases schedule_at with
  | some a =>
      cases schedule_in with
      | some d => exact absurd ⟨rfl, rfl⟩ h
      | none => cases lock <;> cases task_kwargs <;> exact ⟨_, rfl, by simp⟩
  | none =>
      cases schedule_in with
      | some d => cases lock <;> cases task_kwargs <;> exact ⟨_, rfl, by simp⟩
      | none => cases lock <;> cases task_kwargs <;> exact ⟨_, rfl, by simp⟩

/-- Witness for C4 at a concrete call with everything omitted. -/
theorem configure_result_fields_witness :
    ∃ job : Job,
      (Task.configure exampleTask exampleManager 0 0 none none none none).1
        = Except.ok job ∧
      job.id = none ∧ job.task_name = exampleTask.name ∧
      job.queue = exampleTask.queue ∧ job.job_store = exampleManager.job_store ∧
      ((none : Option String) = none → job.lock = uuidStr 0) ∧
      ((none : Option JSONDict) = none → job.task_kwargs = []) :=
  configure_result_fields exampleTask exampleManager 0 0 none none none none
    (by simp)

theorem countRegisterQueue_nil (q : String) : countRegisterQueue q [] = 0 := rfl

theorem countRegisterQueue_cons (q p : String) (calls : List StoreCall) :
    countRegisterQueue q (StoreCall.registerQueue p :: calls)
      = (if p = q then 1 else 0) + countRegisterQueue q calls := by
  by_cases h : p = q
  · simp [countRegisterQueue, StoreCall.isRegisterQueueFor, h, List.countP_cons]
    omega
  · simp [countRegisterQueue, StoreCall.isRegisterQueueFor, h, List.countP_cons]

/-- `register` on an already-known queue: only the task registry changes
and no store call is issued. -/
theorem register_known_queue (storeRQ : String → Except Err Unit)
    (m : TaskManager) (t : Task) (h : t.queue ∈ m.queues) :
    TaskManager.register storeRQ m t =
      (Except.ok (), { m with tasks := dictInsert m.tasks t.name t }, []) := by
  simp [TaskManager.register, h]

/-- `register` on a new queue with a succeeding store: the queue joins the
known set and exactly one `register_queue` call is issued. -/
theorem register_new_queue (m : TaskManager) (t : Task)
    (h : t.queue ∉ m.queues) :
    TaskManager.register okStore m t =
      (Except.ok (),
        { job_store := m.job_store, tasks := dictInsert m.tasks t.name t,
          queues := t.queue :: m.queues },
        [StoreCall.registerQueue t.queue]) := by
  simp [TaskManager.register, h, okStore]

/-- Invariant driving C5: folding `register` (with a succeeding store) over
a task list, the known-queue set grows by exactly the queues named, and the
`register_queue(q)` call count is `1` when `q` was unknown and some task
names it, `0` otherwise. -/
theorem registerAll_queue_calls (q : String) :
    ∀ (ts : List Task) (m : TaskManager),
      (q ∈ (TaskManager.registerAll okStore m ts).1.queues ↔
        q ∈ m.queues ∨ q ∈ ts.map Task.queue) ∧
      countRegisterQueue q (TaskManager.registerAll okStore m ts).2 =
        if q ∈ m.queues then 0 else if q ∈ ts.map Task.queue then 1 else 0 := by
  intro ts
  induction ts with
  | nil =>
      intro m
      constructor
      · simp [TaskManager.registerAll]
      · simp [TaskManager.registerAll, countRegisterQueue]
  | cons t rest ih =>
      intro m
      by_cases htq : t.queue ∈ m.queues
      · have hreg := register_known_queue okStore m t htq
        have hstep : TaskManager.registerAll okStore m (t :: rest)
            = ((TaskManager.registerAll okStore
                  { m with tasks := dictInsert m.tasks t.name t } rest).1,
               (TaskManager.registerAll okStore
                  { m with tasks := dictInsert m.tasks t.name t } rest).2) := by
          rw [TaskManager.registerAll, hreg]
          rfl
        have ihm := ih { m with tasks := dictInsert m.tasks t.name t }
        rw [hstep]
        constructor
        · rw [ihm.1]
          simp only [List.map_cons, List.mem_cons]
          constructor
          · rintro (hq | hq)
            · exact Or.inl hq
            · exact Or.inr (Or.inr hq)
          · rintro (hq | hq | hq)
            · exact Or.inl hq
            · exact Or.inl (hq ▸ htq)
            · exact Or.inr hq
        · rw [ihm.2]
          simp only [List.map_cons, List.mem_cons]
          by_cases hq : q ∈ m.queues
          · simp [hq]
          · have hne : ¬(q = t.queue) := fun he => hq (he ▸ htq)
            simp [hq, hne]
      · have hreg := register_new_queue m t htq
        have hstep : TaskManager.registerAll okStore m (t :: rest)
            = ((TaskManager.registerAll okStore
                  { job_store := m.job_store, tasks := dictInsert m.tasks t.name t,
                    queues := t.queue :: m.queues } rest).1,
               StoreCall.registerQueue t.queue ::
                 (TaskManager.registerAll okStore
                   { job_store := m.job_store, tasks := dictInsert m.tasks t.name t,
                     queues := t.queue :: m.queues } rest).2) := by
          rw [TaskManager.registerAll, hreg]
          rfl
        have ihm := ih ({ job_store := m.job_store,
                          tasks := dictInsert m.tasks t.name t,
                          queues := t.queue :: m.queues } : TaskManager)
        rw [hstep]
        constructor
        · rw [ihm.1]
          simp only [List.map_cons, List.mem_cons]
          tauto
        · rw [countRegisterQueue_cons, ihm.2]
          simp only [List.map_cons, List.mem_cons]
          by_cases hq : q = t.queue
          · subst hq
            simp [htq]
          · have hne : ¬(t.queue = q) := fun he => hq he.symm
            rw [if_neg hne]
            simp [hq]

/-- C5: across any sequence of registrations against one manager, the
store's `register_queue(q)` is invoked exactly once when `q` was not
already known and some registered task names it — on the first such
registration — and zero times when `q` is already in the manager's known
queue set. -/
theorem registerQueue_called_once_per_queue (m : TaskManager) (ts : List Task)
    (q : String) :
    countRegisterQueue q (TaskManager.registerAll okStore m ts).2 =
      if q ∈ m.queues then 0 else if q ∈ ts.map Task.queue then 1 else 0 :=
  (registerAll_queue_calls q ts m).2

/-- C6: when the store's queue-provisioning call raises, `register`
propagates that very error, the task is nonetheless already present in the
manager's task registry under its name, and the known-queue set is
unchanged — no rollback of the `tasks` mutation. -/
theorem register_store_failure (m : TaskManager) (task : Task) (e : Err)
    (storeRQ : String → Except Err Unit)
    (hq : task.queue ∉ m.queues) (hf : storeRQ task.queue = Except.error e) :
    TaskManager.register storeRQ m task =
      (Except.error e, { m with tasks := dictInsert m.tasks task.name task },
        [StoreCall.registerQueue task.queue]) ∧
    dictLookup (TaskManager.register storeRQ m task).2.1.tasks task.name
      = some task ∧
    (TaskManager.register storeRQ m task).2.1.queues = m.queues := by
  have hreg : TaskManager.register storeRQ m task =
      (Except.error e, { m with tasks := dictInsert m.tasks task.name task },
        [StoreCall.registerQueue task.queue]) := by
    simp [TaskManager.register, hq, hf]
  refine ⟨hreg, ?_, ?_⟩
  · rw [hreg]
    exact dictLookup_dictInsert m.tasks task.name task
  · rw [hreg]

/-- Witness for C6: a failing store against a fresh manager. -/
theorem register_store_failure_witness :
    TaskManager.register failingStore exampleManager exampleTask =
      (Except.error (Err.storeError "boom"),
        { exampleManager with
            tasks := dictInsert exampleManager.tasks exampleTask.name exampleTask },
        [StoreCall.registerQueue exampleTask.queue]) ∧
    dictLookup (TaskManager.register failingStore exampleManager exampleTask).2.1.tasks
      exampleTask.name = some exampleTask ∧
    (TaskManager.register failingStore exampleManager exampleTask).2.1.queues
      = exampleManager.queues :=
  register_store_failure exampleManager exampleTask (Err.storeError "boom")
    failingStore (by simp [exampleManager]) rfl

/-- C7: every job returned by `configure` carries a non-empty `lock`, for
every possible `lock` argument including the empty string (which, being
falsy, is replaced by the generated token); and two calls omitting `lock`
that draw distinct fresh 128-bit values produce jobs with distinct locks. -/
theorem lock_nonempty_and_fresh_locks_distinct :
    (∀ (t : Task) (m : TaskManager) (now : DateTime) (fresh : Nat)
        (lock : Option String) (task_kwargs : Option JSONDict)
        (schedule_at : Option DateTime) (schedule_in : Option Duration) (job : Job),
      (Task.configure t m now fresh lock task_kwargs schedule_at schedule_in).1
          = Except.ok job → job.lock ≠ "") ∧
    (∀ (t : Task) (m : TaskManager) (now : DateTime)
        (task_kwargs : Option JSONDict) (u v : Nat),
      u < 2 ^ 128 → v < 2 ^ 128 → u ≠ v →
      ∃ j1 j2 : Job,
        (Task.configure t m now u none task_kwargs none none).1 = Except.ok j1 ∧
        (Task.configure t m now v none task_kwargs none none).1 = Except.ok j2 ∧
        j1.lock ≠ j2.lock) := by
  constructor
  · intro t m now fresh lock task_kwargs schedule_at schedule_in job hok
    cases schedule_at with
    | some a =>
        cases schedule_in with
        | some d => simp [Task.configure] at hok
        | none =>
            cases lock with
            | none =>
                simp only [Task.configure] at hok
                cases hok
                exact uuidStr_ne_empty fresh
            | some s =>
                simp only [Task.configure] at hok
                cases hok
                by_cases hs : s = "" <;> simp [hs, uuidStr_ne_empty fresh]
    | none =>
        cases schedule_in with
        | some d =>
            cases lock with
            | none =>
                simp only [Task.configure] at hok
                cases hok
                exact uuidStr_ne_empty fresh
            | some s =>
                simp only [Task.configure] at hok
                cases hok
                by_cases hs : s = "" <;> simp [hs, uuidStr_ne_empty fresh]
        | none =>
            cases lock with
            | none =>
                simp only [Task.configure] at hok
                cases hok
                exact uuidStr_ne_empty fresh
            | some s =>
                simp only [Task.configure] at hok
                cases hok
                by_cases hs : s = "" <;> simp [hs, uuidStr_ne_empty fresh]
  · intro t m now task_kwargs u v hu hv huv
    refine ⟨_, _, rfl, rfl, ?_⟩
    show uuidStr u ≠ uuidStr v
    exact fun he => huv (uuidStr_injOn u v hu hv he)

/-- Witness for C7: a configure call passing the empty-string lock still
yields a non-empty lock, and distinct fresh values `0` and `1` yield
distinct locks. -/
theorem lock_nonempty_and_fresh_locks_distinct_witness :
    (∃ j : Job,
      (Task.configure exampleTask exampleManager 0 0 (some "") none none none).1
        = Except.ok j ∧ j.lock ≠ "") ∧
    (∃ j1 j2 : Job,
      (Task.configure exampleTask exampleManager 0 0 none none none none).1
        = Except.ok j1 ∧
      (Task.configure exampleTask exampleManager 0 1 none none none none).1
        = Except.ok j2 ∧
      j1.lock ≠ j2.lock) := by
  constructor
  · refine ⟨_, rfl, ?_⟩
    exact lock_nonempty_and_fresh_locks_distinct.1 exampleTask exampleManager 0 0
      (some "") none none none _ rfl
  · exact lock_nonempty_and_fresh_locks_distinct.2 exampleTask exampleManager 0
      none 0 1 (by norm_num) (by norm_num) (by norm_num)

/-- C8: calling a task directly invokes the bound work unit synchronously
with the given keyword arguments, returns the work unit's own result —
value or propagated failure, unmodified — and performs no store interaction
and no manager mutation. -/
theorem task_call_invokes_work_unit (t : Task) (m : TaskManager)
    (kwargs : JSONDict) :
    (Task.call t m kwargs).1 = t.func kwargs ∧
    (Task.call t m kwargs).2.1 = m ∧
    (Task.call t m kwargs).2.2 = [] :=
  ⟨rfl, rfl, rfl⟩

/-- C9: `configure` has no side effects: the manager state it hands back —
task registry and known-queue set included — is exactly the one it was
given, and it issues no call to the job store. -/
theorem configure_no_side_effects (t : Task) (m : TaskManager) (now : DateTime)
    (fresh : Nat) (lock : Option String) (task_kwargs : Option JSONDict)
    (schedule_at : Option DateTime) (schedule_in : Option Duration) :
    (Task.configure t m now fresh lock task_kwargs schedule_at schedule_in).2.1.tasks
      = m.tasks ∧
    (Task.configure t m now fresh lock task_kwargs schedule_at schedule_in).2.1.queues
      = m.queues ∧
    (Task.configure t m now fresh lock task_kwargs schedule_at schedule_in).2.2
      = [] := by
  unfold Task.configure
  split
  · exact ⟨rfl, rfl, rfl⟩
  · exact ⟨rfl, rfl, rfl⟩

/-- C10: `configure` with an empty duration dict as `schedule_in` (and no
`schedule_at`) succeeds, and the job's `scheduled_at` is exactly the
current UTC time — present, not absent. -/
theorem configure_empty_schedule_in (t : Task) (m : TaskManager)
    (now : DateTime) (fresh : Nat) (lock : Option String)
    (task_kwargs : Option JSONDict) :
    ∃ job : Job,
      (Task.configure t m now fresh lock task_kwargs none
          (some Duration.empty)).1 = Except.ok job ∧
      job.scheduled_at = some now := by
  cases lock <;> cases task_kwargs <;>
    exact ⟨_, rfl, by norm_num [Duration.addTo, Duration.empty]⟩

end Cabbage
